import Mathlib

/-!
Verification of the feed discovery and incremental sync engine of the
AINewsletter repository (src/rss_feed_scorer.py, src/config.py, src/db.py),
via a shallow embedding: Python dicts become structures, datetimes become
integers (seconds), network calls become oracles passed in explicitly, and
database side effects become fields of an explicit result record.
-/

namespace AINewsletter

/-! ## Configuration constants (src/config.py) -/

def RSS_PATTERNS : List String :=
  ["/feed", "/rss", "/atom.xml", "/feed.xml", "/rss.xml", "/feed/", "/rss/",
   "/blog/feed", "/blog/rss", "/blog/feed.xml", "/blog/rss.xml", "/index.xml",
   "/feeds/posts/default"]

def EXCLUDED_RSS_DOMAINS : List String := ["wired.com", "nytimes.com"]

def MAX_FEED_ITEMS : Nat := 50

def DAYS_LOOKBACK : Nat := 7

def CRON_FIRST_RUN_DAYS : Nat := 1

/-- Seconds in a day; time is modelled as integer seconds. -/
def secondsPerDay : Int := 86400

/-- Model of Python `timedelta(days = n)` as a number of seconds. -/
def timedeltaDays (n : Nat) : Int := n * secondsPerDay

/-! ## String helpers: Python `needle in hay` and `urlparse(url).netloc` -/

/-- `charsHasPref n h`: the char list `n` is an initial segment of `h`. -/
def charsHasPref : List Char → List Char → Bool
  | [], _ => true
  | _ :: _, [] => false
  | n :: ns, h :: hs => n == h && charsHasPref ns hs

/-- `charsHasSub n h`: the char list `n` occurs contiguously inside `h`. -/
def charsHasSub : List Char → List Char → Bool
  | ns, [] => ns.isEmpty
  | ns, h :: hs => charsHasPref ns (h :: hs) || charsHasSub ns hs

/-- Model of the Python substring test `needle in hay`. -/
def pyIn (needle hay : String) : Bool := charsHasSub needle.data hay.data

theorem charsHasPref_iff (n h : List Char) :
    charsHasPref n h = true ↔ ∃ r, h = n ++ r := by
  induction n generalizing h with
  | nil => simp [charsHasPref]
  | cons c cs ih =>
    cases h with
    | nil => simp [charsHasPref]
    | cons d ds =>
      simp only [charsHasPref, Bool.and_eq_true, beq_iff_eq, ih]
      constructor
      · rintro ⟨rfl, r, rfl⟩; exact ⟨r, rfl⟩
      · rintro ⟨r, hr⟩
        injection hr with h1 h2
        exact ⟨h1.symm, r, h2⟩

theorem charsHasSub_iff (n h : List Char) :
    charsHasSub n h = true ↔ ∃ l r, h = l ++ n ++ r := by
  induction h with
  | nil =>
    simp only [charsHasSub, List.isEmpty_iff]
    constructor
    · rintro rfl; exact ⟨[], [], rfl⟩
    · rintro ⟨l, r, hr⟩
      rcases List.append_eq_nil.mp (List.append_eq_nil.mp hr.symm).1 with ⟨_, h2⟩
      exact h2
  | cons d ds ih =>
    simp only [charsHasSub, Bool.or_eq_true, charsHasPref_iff, ih]
    constructor
    · rintro (⟨r, hr⟩ | ⟨l, r, hr⟩)
      · exact ⟨[], r, by simpa using hr⟩
      · exact ⟨d :: l, r, by simp [hr]⟩
    · rintro ⟨l, r, hr⟩
      cases l with
      | nil => exact Or.inl ⟨r, by simpa using hr⟩
      | cons x xs =>
        injection hr with h1 h2
        exact Or.inr ⟨xs, r, h2⟩

/-- Python `needle in hay` holds exactly when `needle` is a contiguous
substring of `hay`. -/
theorem pyIn_iff (needle hay : String) :
    pyIn needle hay = true ↔ ∃ l r, hay.data = l ++ needle.data ++ r := by
  exact charsHasSub_iff needle.data hay.data

/-- Take characters until the predicate holds (the matching char excluded). -/
def takeTill (p : Char → Bool) : List Char → List Char
  | [] => []
  | c :: cs => if p c then [] else c :: takeTill p cs

theorem mem_takeTill {p : Char → Bool} {l : List Char} {c : Char}
    (h : c ∈ takeTill p l) : p c = false := by
  induction l with
  | nil => simp [takeTill] at h
  | cons d ds ih =>
    by_cases hd : p d = true
    · simp [takeTill, hd] at h
    · rw [takeTill, if_neg hd, List.mem_cons] at h
      cases h with
      | inl h => subst h; simpa using hd
      | inr h => exact ih h

/-- A character ending the network-location part of a URL. -/
def netlocSep (c : Char) : Bool := c == '/' || c == '?' || c == '#'

/-- The characters after the first occurrence of `://` (none if absent). -/
def afterSchemeMark : List Char → Option (List Char)
  | [] => none
  | c :: cs =>
    if charsHasPref (':' :: '/' :: '/' :: []) (c :: cs) then some (cs.drop 2)
    else afterSchemeMark cs

/-- Model of Python `urlparse(url).netloc` for scheme-qualified URLs: the
text after the first `://`, up to the first `/`, `?` or `#`; empty when the
URL has no `://`. -/
def netlocOf (url : String) : String :=
  match afterSchemeMark url.data with
  | none => ""
  | some rest => ⟨takeTill netlocSep rest⟩

theorem netlocOf_no_sep {url : String} {c : Char} (h : c ∈ (netlocOf url).data) :
    c ≠ '/' ∧ c ≠ '?' ∧ c ≠ '#' := by
  unfold netlocOf at h
  have hsep : netlocSep c = false := by
    rcases hs : afterSchemeMark url.data with _ | rest
    · simp [hs] at h
    · simp only [hs] at h
      exact mem_takeTill h
  simp only [netlocSep, Bool.or_eq_false_iff, beq_eq_false_iff_ne] at hsep
  exact ⟨hsep.1.1, hsep.1.2, hsep.2⟩

/-! ## Crawl results and domain extraction (src/rss_feed_scorer.py:37-55) -/

/-- One entry of the `posts` array of browser_crawl_results.json; absent
fields default to the empty string / empty list as via dict.get. -/
structure Post where
  url : String
  outbound_links : List String
deriving DecidableEq

structure CrawlData where
  posts : List Post
deriving DecidableEq

/-- Model of Python `set.add`: insert if absent (first-seen order kept). -/
def setInsert (l : List String) (s : String) : List String :=
  if s ∈ l then l else l ++ [s]

theorem mem_setInsert (a s : String) (l : List String) :
    a ∈ setInsert l s ↔ a ∈ l ∨ a = s := by
  unfold setInsert
  split
  · next hmem =>
    constructor
    · exact Or.inl
    · rintro (h | rfl)
      · exact h
      · exact hmem
  · simp

theorem nodup_setInsert {l : List String} (h : l.Nodup) (s : String) :
    (setInsert l s).Nodup := by
  unfold setInsert
  split
  · exact h
  · next hmem =>
    exact List.Nodup.append h (List.nodup_singleton s) (by simpa using hmem)

/-- Adding the netloc of one outbound link (the inner loop body). -/
def addLinkDomain (acc : List String) (link : String) : List String :=
  if netlocOf link ≠ "" then setInsert acc (netlocOf link) else acc

/-- One iteration of the posts loop: the post URL's netloc (when the URL is
non-empty and the netloc non-empty), then the netlocs of outbound links. -/
def addPostDomains (acc : List String) (p : Post) : List String :=
  let acc1 := if p.url ≠ "" ∧ netlocOf p.url ≠ "" then setInsert acc (netlocOf p.url) else acc
  p.outbound_links.foldl addLinkDomain acc1

/-- Translation of extract_domains_from_crawl. -/
def extract_domains_from_crawl (c : CrawlData) : List String :=
  c.posts.foldl addPostDomains []

/-! ## Domain exclusion filter (src/rss_feed_scorer.py:269-276) -/

/-- The built-in skip_domains literal of run_sync. -/
def SKIP_BUILTIN : List String :=
  ["github.com", "x.com", "twitter.com", "youtube.com", "apps.apple.com",
   "play.google.com", "linkedin.com", "facebook.com", "instagram.com",
   "tiktok.com"]

/-- skip_domains = the built-in set plus config.EXCLUDED_RSS_DOMAINS. -/
def skipDomains : List String := SKIP_BUILTIN ++ EXCLUDED_RSS_DOMAINS

/-- `any(skip in d for skip in skip_domains)`: substring match. -/
def domainExcluded (d : String) : Bool := skipDomains.any (fun s => pyIn s d)

/-- The set comprehension filtering out skipped domains. -/
def filterDomains (l : List String) : List String :=
  l.filter (fun d => !domainExcluded d)

/-! ## URL deduplication (src/rss_feed_scorer.py:321-328) -/

/-- A parsed feed item, the dict built by parse_feed. `published = none`
models the Python None; times are integer seconds. -/
structure Item where
  title : String
  url : String
  summary : String
  published : Option Int
  source : String
deriving DecidableEq

/-- The dedup loop of run_sync, with `seen` the seen_urls set so far: an
item is emitted when its URL is truthy and unseen. -/
def dedupGo (seen : List String) : List Item → List Item
  | [] => []
  | i :: rest =>
    if i.url ≠ "" ∧ i.url ∉ seen then i :: dedupGo (i.url :: seen) rest
    else dedupGo seen rest

/-- The Deduplicator step of run_sync (seen_urls starts empty). -/
def dedupByUrl (items : List Item) : List Item := dedupGo [] items

/-! ## Cutoff computation and cursor (src/rss_feed_scorer.py:234-247) -/

/-- The cutoff_date branch of run_sync: in cron mode the persisted cursor
when present, else now minus CRON_FIRST_RUN_DAYS; in full/manual mode now
minus DAYS_LOOKBACK. -/
def computeCutoff (cron_mode : Bool) (last_run : Option Int) (now : Int) : Int :=
  if cron_mode then
    match last_run with
    | some t => t
    | none => now - timedeltaDays CRON_FIRST_RUN_DAYS
  else
    now - timedeltaDays DAYS_LOOKBACK

/-! ## Feed fetch and parse (src/rss_feed_scorer.py:166-223) -/

/-- One *_parsed attribute of a feedparser entry: `ok` says whether
`datetime(*value[:6])` succeeds, `t` is the resulting timestamp. An absent
or falsy attribute is modelled as `none` at the use site. -/
structure RawDate where
  ok : Bool
  t : Int
deriving DecidableEq

/-- One element of entry.content; `value` models .get("value", ""). -/
structure ContentBlock where
  value : Option String
deriving DecidableEq

/-- A feedparser entry: `none` fields model absent (or falsy, for the
*_parsed dates) attributes. -/
structure FEntry where
  published_parsed : Option RawDate
  updated_parsed : Option RawDate
  created_parsed : Option RawDate
  title : Option String
  link : Option String
  summary : Option String
  description : Option String
  content : List ContentBlock
deriving DecidableEq

/-- The result of feedparser.parse. -/
structure Feed where
  bozo : Bool
  entries : List FEntry
deriving DecidableEq

/-- The date-field loop: first of published/updated/created that is present
and converts to a valid timestamp (a failing conversion falls through). -/
def firstValidDate : List (Option RawDate) → Option Int
  | [] => none
  | none :: rest => firstValidDate rest
  | some r :: rest => if r.ok then some r.t else firstValidDate rest

def resolvePubDate (e : FEntry) : Option Int :=
  firstValidDate [e.published_parsed, e.updated_parsed, e.created_parsed]

/-- Tag-stripping state machine. Modelled from the spec: BeautifulSoup
get_text (a library call from outside this repository) — drop everything
between < and >. -/
def stripTagsGo : List Char → Bool → List Char
  | [], _ => []
  | c :: cs, true => if c == '>' then stripTagsGo cs false else stripTagsGo cs true
  | c :: cs, false => if c == '<' then stripTagsGo cs true else c :: stripTagsGo cs false

/-- Summary cleaning: strip HTML then truncate to 500 characters; the empty
summary is left as-is (the Python `if summary:` guard). -/
def cleanSummary (s : String) : String :=
  if s = "" then "" else String.take ⟨stripTagsGo s.data false⟩ 500

/-- Summary extraction order: summary, description, first content value. -/
def rawSummary (e : FEntry) : String :=
  match e.summary with
  | some s => s
  | none =>
    match e.description with
    | some s => s
    | none =>
      match e.content with
      | [] => ""
      | c :: _ => c.value.getD ""

/-- The item dict appended for one entry. -/
def toItem (feed_url : String) (e : FEntry) : Item :=
  { title := e.title.getD "Untitled"
    url := e.link.getD ""
    summary := cleanSummary (rawSummary e)
    published := resolvePubDate e
    source := netlocOf feed_url }

/-- The entry loop of parse_feed: skip an entry whose resolved date is
strictly before the cutoff, keep everything else, in feed order. -/
def parseEntries (feed_url : String) (cutoff : Int) : List FEntry → List Item
  | [] => []
  | e :: rest =>
    match resolvePubDate e with
    | some t =>
      if t < cutoff then parseEntries feed_url cutoff rest
      else toItem feed_url e :: parseEntries feed_url cutoff rest
    | none => toItem feed_url e :: parseEntries feed_url cutoff rest

/-- The default cutoff when parse_feed is called with cutoff_date = None. -/
def effCutoff (cutoff? : Option Int) (now : Int) : Int :=
  cutoff?.getD (now - timedeltaDays DAYS_LOOKBACK)

/-- Translation of parse_feed. The fetch+parse of the feed URL is an
explicit argument: `.error` models any exception raised while fetching or
parsing (caught by the outer try, which returns the empty list). -/
def parse_feed (fetch : Except String Feed) (feed_url : String)
    (cutoff? : Option Int) (now : Int) : List Item :=
  match fetch with
  | .error _ => []
  | .ok feed =>
    if feed.bozo && feed.entries.isEmpty then []
    else parseEntries feed_url (effCutoff cutoff? now) (feed.entries.take MAX_FEED_ITEMS)

/-- The predicate an entry must satisfy to be kept by the cutoff filter. -/
def keepEntry (cutoff : Int) (e : FEntry) : Bool :=
  match resolvePubDate e with
  | none => true
  | some t => !decide (t < cutoff)

/-! ## Feed discovery (src/rss_feed_scorer.py:73-163) -/

/-- A `link` element of a fetched HTML page: its rel tokens, its type
attribute and its href attribute (none = attribute absent). -/
structure Link where
  rel : List String
  ltype : Option String
  href : Option String
deriving DecidableEq

/-- An HTML page is modelled by its sequence of link elements, in document
order (the only elements the discovery code inspects). -/
def HtmlDoc := List Link

/-- An HTTP response as seen by try_rss_patterns. -/
structure HttpResp where
  status : Nat
  contentType : String
  body : String
deriving DecidableEq

/-- The network oracle: getHtml models the requests.get + raise_for_status
+ BeautifulSoup step of discover_rss_from_html (none = any exception);
getResp models the requests.get of try_rss_patterns (none = exception). -/
structure Net where
  getHtml : String → Option HtmlDoc
  getResp : String → Option HttpResp

/-- Python truthiness of an optional string. -/
def optTruthy : Option String → Bool
  | none => false
  | some s => s ≠ ""

/-- soup.find("link", rel = "alternate", type = t) match condition. -/
def linkMatches (t : String) (l : Link) : Bool :=
  l.rel.contains "alternate" && l.ltype == some t

/-- The three link types probed, in the source's order. -/
def FEED_LINK_TYPES : List String :=
  ["application/rss+xml", "application/atom+xml", "application/xml"]

/-- Relative-href handling: urljoin (a Python stdlib call, passed in as an
oracle `uj`) unless the href already starts with "http". -/
def resolveHref (uj : String → String → String) (pageUrl h : String) : String :=
  if charsHasPref "http".data h.data then h else uj pageUrl h

/-- The type loop of discover_rss_from_html: for each type in order, find
the first matching link of the document; return its resolved href when
truthy, otherwise move to the next type. -/
def htmlTypeLoop (uj : String → String → String) (url : String) (doc : HtmlDoc) :
    List String → Option String
  | [] => none
  | t :: ts =>
    match List.find? (linkMatches t) doc with
    | some l =>
      if optTruthy l.href then some (resolveHref uj url (l.href.getD ""))
      else htmlTypeLoop uj url doc ts
    | none => htmlTypeLoop uj url doc ts

/-- Translation of discover_rss_from_html; the second component counts the
network requests issued (always 1: the page fetch). -/
def discover_rss_from_html (net : Net) (uj : String → String → String)
    (url : String) : Option String × Nat :=
  match net.getHtml url with
  | none => (none, 1)
  | some doc => (htmlTypeLoop uj url doc FEED_LINK_TYPES, 1)

def feedTokensCT : List String := ["xml", "rss", "atom"]

def feedTokensBody : List String := ["<rss", "<feed", "<atom", "<?xml"]

/-- The acceptance test of try_rss_patterns: HTTP 200 and a feed-looking
content-type or a feed-looking first 500 characters of the body. -/
def isFeedResp (r : HttpResp) : Bool :=
  r.status == 200 &&
    (feedTokensCT.any (fun x => pyIn x r.contentType.toLower) ||
     feedTokensBody.any (fun x => pyIn x ((r.body.take 500).toLower)))

/-- The probing loop over candidate URLs: an exception (none) or a
non-accepted response falls through to the next candidate; the request
count accumulates one per attempt. -/
def tryCandidates (net : Net) : List String → Option String × Nat
  | [] => (none, 0)
  | u :: us =>
    match net.getResp u with
    | none => let r := tryCandidates net us; (r.1, r.2 + 1)
    | some resp =>
      if isFeedResp resp then (some u, 1)
      else let r := tryCandidates net us; (r.1, r.2 + 1)

/-- Translation of try_rss_patterns: base-URL-major, pattern-minor order. -/
def try_rss_patterns (net : Net) (domain : String) : Option String × Nat :=
  tryCandidates net
    ((["https://" ++ domain, "https://www." ++ domain]).flatMap
      (fun b => RSS_PATTERNS.map (fun p => b ++ p)))

/-- One value of the feeds-cache JSON object: feed_url / no_feed /
discovered_at / checked_at keys (none = key absent). -/
structure CacheEntry where
  feed_url : Option String
  no_feed : Bool
  discovered_at : Option Int
  checked_at : Option Int
deriving DecidableEq

/-- The cache entry written on successful discovery. -/
def resolvedEntry (u : String) (now : Int) : CacheEntry :=
  { feed_url := some u, no_feed := false, discovered_at := some now, checked_at := none }

/-- The cache entry written when every discovery method failed. -/
def noFeedEntry (now : Int) : CacheEntry :=
  { feed_url := none, no_feed := true, discovered_at := none, checked_at := some now }

/-- The feeds cache: a JSON object keyed by domain. -/
def Cache := String → Option CacheEntry

/-- cache[domain] = entry. -/
def cacheSet (c : Cache) (k : String) (v : CacheEntry) : Cache :=
  fun x => if x = k then some v else c x

/-- Python falsiness of an optional string (None or ""). -/
def strFalsy : Option String → Bool
  | none => true
  | some s => s == ""

/-- The fallback chain of discover_rss_feed once the cache missed: HTML
discovery on the bare host, then (if falsy) on the www host, then (if
falsy) pattern probing; the second component counts network requests. -/
def discoveryAttempts (net : Net) (uj : String → String → String)
    (domain : String) : Option String × Nat :=
  let r1 := discover_rss_from_html net uj ("https://" ++ domain)
  let r2 := if strFalsy r1.1 then discover_rss_from_html net uj ("https://www." ++ domain)
            else (r1.1, 0)
  let r3 := if strFalsy r2.1 then try_rss_patterns net domain else (r2.1, 0)
  (r3.1, r1.2 + r2.2 + r3.2)

/-- Running the fallback chain and rewriting the domain's cache entry with
the outcome (a Resolved entry on truthy success, a NoFeed marker else). -/
def discoverFresh (net : Net) (uj : String → String → String) (now : Int)
    (domain : String) (cache : Cache) : Option String × Cache × Nat :=
  let r := discoveryAttempts net uj domain
  (r.1,
   cacheSet cache domain
     (if optTruthy r.1 then resolvedEntry (r.1.getD "") now else noFeedEntry now),
   r.2)

/-- Translation of discover_rss_feed: a cache hit short-circuits (a truthy
feed_url is returned, a no_feed marker returns none); otherwise the
fallback chain runs and the cache is updated. The triple is (result,
cache after the call, number of network requests issued). -/
def discover_rss_feed (net : Net) (uj : String → String → String) (now : Int)
    (domain : String) (cache : Cache) : Option String × Cache × Nat :=
  match cache domain with
  | some e =>
    if optTruthy e.feed_url then (e.feed_url, cache, 0)
    else if e.no_feed then (none, cache, 0)
    else discoverFresh net uj now domain cache
  | none => discoverFresh net uj now domain cache

/-- A cache value that is a well-formed outcome: a Resolved entry (truthy
feed_url) or a NoFeed marker. -/
def entryOkB : Option CacheEntry → Bool
  | none => false
  | some e => optTruthy e.feed_url || e.no_feed

/-! ## Sync orchestrator (src/rss_feed_scorer.py:226-354) -/

/-- Insertion step for sorting the domain list. -/
def strInsert (s : String) : List String → List String
  | [] => [s]
  | x :: xs => if s < x then s :: x :: xs else x :: strInsert s xs

/-- Model of Python sorted() over the domain set. -/
def sortStrings : List String → List String
  | [] => []
  | x :: xs => strInsert x (sortStrings xs)

/-- `set(list(domains)[:limit])` when a positive --limit is given. -/
def limitTake (lim : Nat) (l : List String) : List String :=
  if lim > 0 then l.take lim else l

/-- The domain list run_sync iterates over: extraction, exclusion filter,
optional --limit truncation, then sorted order. -/
def syncDomains (lim : Nat) (crawl : CrawlData) : List String :=
  sortStrings (limitTake lim (filterDomains (extract_domains_from_crawl crawl)))

/-- The discovery loop of run_sync: with --skip-discovery a domain absent
from the (evolving) cache is skipped; otherwise discover_rss_feed runs,
threading the cache, and a truthy result is recorded in feed_urls. -/
def discoverLoop (net : Net) (uj : String → String → String) (now : Int)
    (skip_discovery : Bool) : List String → Cache → Cache × List (String × String)
  | [], cache => (cache, [])
  | d :: rest, cache =>
    if skip_discovery && (cache d).isNone then
      discoverLoop net uj now skip_discovery rest cache
    else
      let r := discover_rss_feed net uj now d cache
      let tail := discoverLoop net uj now skip_discovery rest r.2.1
      (tail.1, if optTruthy r.1 then (d, r.1.getD "") :: tail.2 else tail.2)

/-- The environment of one run_sync invocation: the crawl-results file
(none = missing or invalid JSON, which is fatal), the persisted cursor,
the clock, the feeds cache as loaded, the network, urljoin, the per-feed
fetch outcome, and the store's upsert (returning the count written). -/
structure RunEnv where
  crawl : Option CrawlData
  lastRun : Option Int
  now : Int
  cache : Cache
  net : Net
  uj : String → String → String
  feedFetch : String → Except String Feed
  upsert : List Item → Nat

/-- The observable outcome of run_sync: the return value (.error () models
sys.exit(1) on fatal input error), the cache as saved, and whether
db.set_last_cron_run was called. -/
structure RunOut where
  result : Except Unit Nat
  cacheOut : Cache
  cursorAdvanced : Bool

/-- Translation of run_sync. -/
def run_sync (cron_mode skip_discovery : Bool) (limit_domains : Nat)
    (env : RunEnv) : RunOut :=
  let cutoff := computeCutoff cron_mode env.lastRun env.now
  match env.crawl with
  | none => { result := .error (), cacheOut := env.cache, cursorAdvanced := false }
  | some crawl =>
    let sortedD := syncDomains limit_domains crawl
    let disc := discoverLoop env.net env.uj env.now skip_discovery sortedD env.cache
    if disc.2.isEmpty then
      { result := .ok 0, cacheOut := disc.1, cursorAdvanced := false }
    else
      let all_items := disc.2.flatMap
        (fun du => parse_feed (env.feedFetch du.2) du.2 (some cutoff) env.now)
      let unique := dedupByUrl all_items
      if unique.isEmpty then
        { result := .ok 0, cacheOut := disc.1, cursorAdvanced := cron_mode }
      else
        { result := .ok (env.upsert unique), cacheOut := disc.1,
          cursorAdvanced := cron_mode }

/-! ## Shared concrete oracles for witnesses -/

/-- A network that always fails (every request raises). -/
def netNone : Net := { getHtml := fun _ => none, getResp := fun _ => none }

/-- A trivial urljoin oracle (identity on the href). -/
def ujW : String → String → String := fun _ h => h

/-! ## Claim C1: empty-URL items in the Deduplicator -/

theorem dedupGo_mem_url_ne {seen : List String} {items : List Item} {i : Item}
    (h : i ∈ dedupGo seen items) : i.url ≠ "" := by
  induction items generalizing seen with
  | nil => simp [dedupGo] at h
  | cons j rest ih =>
    by_cases hj : j.url ≠ "" ∧ j.url ∉ seen
    · rw [dedupGo, if_pos hj, List.mem_cons] at h
      cases h with
      | inl h => subst h; exact hj.1
      | inr h => exact ih h
    · rw [dedupGo, if_neg hj] at h
      exact ih h

/-- C1 counterexample: the claim says an empty-URL item always appears in
the deduplicated output; but the dedup loop of run_sync drops it (the
`if url and ...` guard), so a single empty-URL item yields empty output. -/
theorem C1_counterexample :
    (⟨"t", "", "", none, "s"⟩ : Item).url = "" ∧
    (⟨"t", "", "", none, "s"⟩ : Item) ∉ dedupByUrl [⟨"t", "", "", none, "s"⟩] := by
  decide

/-- C1 (amended): an item whose URL is empty never appears in the
deduplicated output of the Deduplicator step of run_sync — empty-URL items
are always dropped, not treated as always-new. -/
theorem C1_amended_empty_url_dropped (items : List Item) (i : Item)
    (h : i ∈ dedupByUrl items) : i.url ≠ "" :=
  dedupGo_mem_url_ne h

theorem C1_witness : (⟨"a", "https://a/x", "", none, "s"⟩ : Item).url ≠ "" :=
  C1_amended_empty_url_dropped [⟨"a", "https://a/x", "", none, "s"⟩]
    ⟨"a", "https://a/x", "", none, "s"⟩ (by decide)

/-! ## Claim C7: cutoff computation of run_sync -/

/-- C7: in cron mode with a persisted cursor the cutoff is the cursor
timestamp; in cron mode without one it is now minus the first-run lookback
window, which is shorter than the full lookback window; in full/manual
mode it is now minus the full lookback window, independent of the cursor
(the cursor value is never consulted). -/
theorem C7_cutoff_computation :
    (∀ t now, computeCutoff true (some t) now = t) ∧
    (∀ now, computeCutoff true none now = now - timedeltaDays CRON_FIRST_RUN_DAYS) ∧
    timedeltaDays CRON_FIRST_RUN_DAYS < timedeltaDays DAYS_LOOKBACK ∧
    (∀ last now, computeCutoff false last now = now - timedeltaDays DAYS_LOOKBACK) :=
  ⟨fun _ _ => rfl, fun _ => rfl, by decide, fun _ _ => rfl⟩

/-! ## Claim C8: parse_feed failure behavior -/

/-- C8: parse_feed returns the empty list on any fetch or parse failure
(the whole body is guarded by try/except), and returns the empty list
immediately when the parser reports a malformed document (bozo) and yields
zero entries; it never propagates an exception (it is a total function
into lists in this embedding). -/
theorem C8_parse_feed_failure :
    (∀ (msg fu : String) (co : Option Int) (now : Int),
      parse_feed (.error msg) fu co now = []) ∧
    (∀ (feed : Feed) (fu : String) (co : Option Int) (now : Int),
      feed.bozo = true → feed.entries = [] → parse_feed (.ok feed) fu co now = []) :=
  ⟨fun _ _ _ _ => rfl,
   fun feed fu co now hb he => by simp [parse_feed, hb, he]⟩

theorem C8_witness :
    parse_feed (.error "boom") "https://f/feed" none 0 = [] ∧
    parse_feed (.ok ⟨true, []⟩) "https://f/feed" none 0 = [] :=
  ⟨C8_parse_feed_failure.1 "boom" "https://f/feed" none 0,
   C8_parse_feed_failure.2 ⟨true, []⟩ "https://f/feed" none 0 rfl rfl⟩

/-! ## Claim C10: the domain exclusion filter is a substring match -/

/-- C10: a domain survives the exclusion filter of run_sync exactly when
no entry of the skip set (built-in non-content hosts plus the configured
excluded list) occurs as a contiguous substring anywhere in it; in
particular a domain merely containing an excluded host, such as
github.com.mirror.example, is excluded. -/
theorem C10_exclusion_is_substring :
    (∀ (l : List String) (d : String),
      d ∈ filterDomains l ↔
        d ∈ l ∧ ¬ ∃ s ∈ skipDomains, ∃ pre post, d.data = pre ++ s.data ++ post) ∧
    domainExcluded "github.com.mirror.example" = true := by
  constructor
  · intro l d
    rw [filterDomains, List.mem_filter]
    refine and_congr_right fun _ => ?_
    rw [Bool.not_eq_true']
    constructor
    · intro hfalse hex
      rcases hex with ⟨s, hs, pre, post, hdata⟩
      have : domainExcluded d = true := by
        rw [domainExcluded, List.any_eq_true]
        exact ⟨s, hs, (pyIn_iff s d).mpr ⟨pre, post, hdata⟩⟩
      rw [hfalse] at this
      exact Bool.false_ne_true this
    · intro hnone
      by_contra htrue
      rw [Bool.not_eq_false, domainExcluded, List.any_eq_true] at htrue
      rcases htrue with ⟨s, hs, hin⟩
      rcases (pyIn_iff s d).mp hin with ⟨pre, post, hdata⟩
      exact hnone ⟨s, hs, pre, post, hdata⟩
  · decide

theorem C10_witness :
    "a.com" ∈ filterDomains ["a.com", "github.com.mirror.example"] ↔
      "a.com" ∈ ["a.com", "github.com.mirror.example"] ∧
        ¬ ∃ s ∈ skipDomains, ∃ pre post, "a.com".data = pre ++ s.data ++ post :=
  C10_exclusion_is_substring.1 ["a.com", "github.com.mirror.example"] "a.com"

/-! ## Claim C5: cutoff filtering in parse_feed -/

theorem parseEntries_eq_filter_map (fu : String) (c : Int) (es : List FEntry) :
    parseEntries fu c es = (es.filter (keepEntry c)).map (toItem fu) := by
  induction es with
  | nil => rfl
  | cons e rest ih =>
    cases h : resolvePubDate e with
    | none => simp [parseEntries, h, keepEntry, List.filter_cons, ih]
    | some t =>
      by_cases ht : t < c
      · simp [parseEntries, h, keepEntry, List.filter_cons, ht, ih]
      · simp [parseEntries, h, keepEntry, List.filter_cons, ht, ih]

/-- C5: for a successfully fetched feed, parse_feed is exactly: take the
first MAX_FEED_ITEMS entries, keep an entry when its resolved timestamp is
absent or not strictly before the cutoff, and map each kept entry to its
item — so no-date entries are always included, strictly-earlier entries
are excluded, cutoff-or-later entries are included, and source order is
preserved (List.filter does not reorder). -/
theorem C5_cutoff_filtering (feed : Feed) (fu : String) (co : Option Int) (now : Int) :
    parse_feed (.ok feed) fu co now =
      ((feed.entries.take MAX_FEED_ITEMS).filter (keepEntry (effCutoff co now))).map
        (toItem fu) ∧
    (∀ e, resolvePubDate e = none → keepEntry (effCutoff co now) e = true) ∧
    (∀ e t, resolvePubDate e = some t →
      (keepEntry (effCutoff co now) e = true ↔ effCutoff co now ≤ t)) := by
  refine ⟨?_, ?_, ?_⟩
  · by_cases hb : (feed.bozo && feed.entries.isEmpty) = true
    · rcases feed with ⟨bz, ents⟩
      cases ents with
      | nil => simp [parse_feed, parseEntries]
      | cons a as => simp at hb
    · simp [parse_feed, hb, parseEntries_eq_filter_map]
  · intro e he
    simp [keepEntry, he]
  · intro e t ht
    simp [keepEntry, ht, not_lt]

theorem C5_witness :
    keepEntry (effCutoff (some 100) 0)
      ⟨none, none, none, none, none, none, none, []⟩ = true ∧
    (keepEntry (effCutoff (some 100) 0)
        ⟨some ⟨true, 99⟩, none, none, none, none, none, none, []⟩ = true ↔
      effCutoff (some 100) 0 ≤ 99) :=
  ⟨(C5_cutoff_filtering ⟨false, []⟩ "https://f/feed" (some 100) 0).2.1
      ⟨none, none, none, none, none, none, none, []⟩ rfl,
   (C5_cutoff_filtering ⟨false, []⟩ "https://f/feed" (some 100) 0).2.2
      ⟨some ⟨true, 99⟩, none, none, none, none, none, none, []⟩ 99 rfl⟩

/-! ## Claim C4: domains produced by extract_domains_from_crawl -/

theorem mem_addLinkDomain (a : String) (acc : List String) (link : String) :
    a ∈ addLinkDomain acc link ↔
      a ∈ acc ∨ (netlocOf link ≠ "" ∧ a = netlocOf link) := by
  unfold addLinkDomain
  split
  · next hne => rw [mem_setInsert]; tauto
  · next hne => simp at hne; tauto

theorem mem_linkFold (a : String) (links : List String) (acc : List String) :
    a ∈ links.foldl addLinkDomain acc ↔
      a ∈ acc ∨ ∃ l ∈ links, netlocOf l ≠ "" ∧ a = netlocOf l := by
  induction links generalizing acc with
  | nil => simp
  | cons x xs ih =>
    rw [List.foldl_cons, ih, mem_addLinkDomain]
    constructor
    · rintro ((h | h) | ⟨l, hl, h⟩)
      · exact Or.inl h
      · exact Or.inr ⟨x, List.mem_cons_self x xs, h⟩
      · exact Or.inr ⟨l, List.mem_cons_of_mem x hl, h⟩
    · rintro (h | ⟨l, hl, h⟩)
      · exact Or.inl (Or.inl h)
      · rcases List.mem_cons.mp hl with rfl | hl
        · exact Or.inl (Or.inr h)
        · exact Or.inr ⟨l, hl, h⟩

theorem mem_addPostDomains (a : String) (acc : List String) (p : Post) :
    a ∈ addPostDomains acc p ↔
      a ∈ acc ∨ (p.url ≠ "" ∧ netlocOf p.url ≠ "" ∧ a = netlocOf p.url) ∨
        ∃ l ∈ p.outbound_links, netlocOf l ≠ "" ∧ a = netlocOf l := by
  unfold addPostDomains
  rw [mem_linkFold]
  split
  · next hcond => rw [mem_setInsert]; tauto
  · next hcond =>
    rw [Classical.not_and_iff_or_not_not] at hcond
    constructor
    · rintro (h | h)
      · exact Or.inl h
      · exact Or.inr (Or.inr h)
    · rintro (h | ⟨h1, h2, h3⟩ | h)
      · exact Or.inl h
      · rcases hcond with hc | hc
        · simp at hc; exact absurd h1 (by simp [hc])
        · simp at hc; exact absurd h2 (by simp [hc])
      · exact Or.inr h

theorem mem_postFold (a : String) (ps : List Post) (acc : List String) :
    a ∈ ps.foldl addPostDomains acc ↔
      a ∈ acc ∨ ∃ p ∈ ps, (p.url ≠ "" ∧ netlocOf p.url ≠ "" ∧ a = netlocOf p.url) ∨
        ∃ l ∈ p.outbound_links, netlocOf l ≠ "" ∧ a = netlocOf l := by
  induction ps generalizing acc with
  | nil => simp
  | cons x xs ih =>
    rw [List.foldl_cons, ih, mem_addPostDomains]
    constructor
    · rintro ((h | h) | ⟨p, hp, h⟩)
      · exact Or.inl h
      · exact Or.inr ⟨x, List.mem_cons_self x xs, h⟩
      · exact Or.inr ⟨p, List.mem_cons_of_mem x hp, h⟩
    · rintro (h | ⟨p, hp, h⟩)
      · exact Or.inl (Or.inl h)
      · rcases List.mem_cons.mp hp with rfl | hp
        · exact Or.inl (Or.inr h)
        · exact Or.inr ⟨p, hp, h⟩

theorem nodup_addLinkDomain {acc : List String} (h : acc.Nodup) (link : String) :
    (addLinkDomain acc link).Nodup := by
  unfold addLinkDomain
  split
  · exact nodup_setInsert h _
  · exact h

theorem nodup_addPostDomains {acc : List String} (h : acc.Nodup) (p : Post) :
    (addPostDomains acc p).Nodup := by
  unfold addPostDomains
  have h1 : (if p.url ≠ "" ∧ netlocOf p.url ≠ "" then setInsert acc (netlocOf p.url)
      else acc).Nodup := by
    split
    · exact nodup_setInsert h _
    · exact h
  generalize (if p.url ≠ "" ∧ netlocOf p.url ≠ "" then setInsert acc (netlocOf p.url)
      else acc) = acc1 at h1
  induction p.outbound_links generalizing acc1 with
  | nil => exact h1
  | cons x xs ih => exact ih _ (nodup_addLinkDomain h1 x)

/-- C4 counterexample: the claim says every extracted domain is lowercase
with no leading "www."; but extraction keeps urlparse(...).netloc
verbatim, so the domain of https://www.Example.com/x is www.Example.com —
it starts with "www." and contains an uppercase letter. -/
theorem C4_counterexample :
    "www.Example.com" ∈
      extract_domains_from_crawl ⟨[⟨"https://www.Example.com/x", []⟩]⟩ ∧
    charsHasPref "www.".data "www.Example.com".data = true ∧
    'E' ∈ "www.Example.com".data ∧ 'E'.isLower = false := by
  decide

/-- C4 (amended): every domain produced by extract_domains_from_crawl is
the verbatim network-location of some post URL (when that URL is
non-empty) or outbound link of the crawl result — the scheme and the
path/query/fragment are stripped (no produced domain contains /, ? or #),
duplicates collapse to a single element (the output has no duplicates) —
but the host is not lowercased and a leading "www." is not removed. -/
theorem C4_amended_domains (c : CrawlData) :
    (extract_domains_from_crawl c).Nodup ∧
    (∀ d, d ∈ extract_domains_from_crawl c ↔
      ∃ p ∈ c.posts, (p.url ≠ "" ∧ netlocOf p.url ≠ "" ∧ d = netlocOf p.url) ∨
        ∃ l ∈ p.outbound_links, netlocOf l ≠ "" ∧ d = netlocOf l) ∧
    (∀ d, d ∈ extract_domains_from_crawl c →
      ∀ ch ∈ d.data, ch ≠ '/' ∧ ch ≠ '?' ∧ ch ≠ '#') := by
  refine ⟨?_, ?_, ?_⟩
  · unfold extract_domains_from_crawl
    have h0 : ([] : List String).Nodup := List.nodup_nil
    generalize ([] : List String) = acc at h0
    induction c.posts generalizing acc with
    | nil => exact h0
    | cons x xs ih => exact ih _ (nodup_addPostDomains h0 x)
  · intro d
    unfold extract_domains_from_crawl
    rw [mem_postFold]
    simp
  · intro d hd ch hch
    rcases (mem_postFold d c.posts []).mp hd with h | ⟨p, _, ⟨_, _, rfl⟩ | ⟨l, _, _, rfl⟩⟩
    · simp at h
    · exact netlocOf_no_sep hch
    · exact netlocOf_no_sep hch

theorem C4_witness : ('a' : Char) ≠ '/' ∧ ('a' : Char) ≠ '?' ∧ ('a' : Char) ≠ '#' :=
  (C4_amended_domains ⟨[⟨"https://a.com/p", []⟩]⟩).2.2 "a.com" (by decide) 'a' (by decide)

/-! ## Claim C6: cache hits short-circuit discovery -/

/-- C6: when the cache holds an entry for the domain that is either a
Resolved entry with a (truthy) feed URL or a NoFeed marker,
discover_rss_feed returns the cached URL (respectively none) having issued
zero network requests and leaving every cache key — the domain's included —
exactly as it was. -/
theorem C6_cache_hit_short_circuit (net : Net) (uj : String → String → String)
    (now : Int) (d : String) (cache : Cache) (e : CacheEntry) (k : String)
    (hc : cache d = some e)
    (hv : optTruthy e.feed_url = true ∨ (e.feed_url = none ∧ e.no_feed = true)) :
    (discover_rss_feed net uj now d cache).1 =
      (if optTruthy e.feed_url then e.feed_url else none) ∧
    (discover_rss_feed net uj now d cache).2.2 = 0 ∧
    (discover_rss_feed net uj now d cache).2.1 k = cache k := by
  rcases hv with h | ⟨h1, h2⟩
  · simp [discover_rss_feed, hc, h]
  · simp [discover_rss_feed, hc, h1, h2, optTruthy]

theorem C6_witness :
    (discover_rss_feed netNone ujW 0 "nofeed.example"
        (fun x => if x = "nofeed.example" then some (noFeedEntry 0) else none)).1 =
      (if optTruthy (noFeedEntry 0).feed_url then (noFeedEntry 0).feed_url else none) ∧
    (discover_rss_feed netNone ujW 0 "nofeed.example"
        (fun x => if x = "nofeed.example" then some (noFeedEntry 0) else none)).2.2 = 0 ∧
    (discover_rss_feed netNone ujW 0 "nofeed.example"
        (fun x => if x = "nofeed.example" then some (noFeedEntry 0) else none)).2.1
        "other.example" =
      (fun x => if x = "nofeed.example" then some (noFeedEntry 0) else none)
        "other.example" :=
  C6_cache_hit_short_circuit netNone ujW 0 "nofeed.example"
    (fun x => if x = "nofeed.example" then some (noFeedEntry 0) else none)
    (noFeedEntry 0) "other.example" (by decide) (Or.inr ⟨rfl, rfl⟩)

/-! ## Claim C9: discovery touches only its own cache key -/

theorem optTruthy_getD {x : Option String} (h : optTruthy x = true) :
    optTruthy (some (x.getD "")) = true := by
  cases x with
  | none => simp [optTruthy] at h
  | some s => simpa [optTruthy] using h

theorem discoverFresh_cacheSet (net : Net) (uj : String → String → String)
    (now : Int) (d : String) (cache : Cache) :
    ∃ eNew, (discoverFresh net uj now d cache).2.1 = cacheSet cache d eNew ∧
      (optTruthy eNew.feed_url || eNew.no_feed) = true := by
  unfold discoverFresh
  by_cases h : optTruthy (discoveryAttempts net uj d).1 = true
  · exact ⟨resolvedEntry ((discoveryAttempts net uj d).1.getD "") now, by simp [h],
      by simp [resolvedEntry, optTruthy_getD h]⟩
  · exact ⟨noFeedEntry now, by simp [h], by simp [noFeedEntry]⟩

/-- C9: for any cache state, discover_rss_feed on domain d leaves the
entry of every other domain unchanged, and afterwards d is always present
in the cache, bound to a Resolved entry (truthy feed_url) or to a NoFeed
marker. -/
theorem C9_cache_frame (net : Net) (uj : String → String → String) (now : Int)
    (d : String) (cache : Cache) (d' : String) (hne : d' ≠ d) :
    (discover_rss_feed net uj now d cache).2.1 d' = cache d' ∧
    entryOkB ((discover_rss_feed net uj now d cache).2.1 d) = true := by
  cases hc : cache d with
  | some e =>
    by_cases h1 : optTruthy e.feed_url = true
    · simp [discover_rss_feed, hc, h1, entryOkB]
    · by_cases h2 : e.no_feed = true
      · simp [discover_rss_feed, hc, h1, h2, entryOkB]
      · obtain ⟨eN, hEq, hOk⟩ := discoverFresh_cacheSet net uj now d cache
        simp [discover_rss_feed, hc, h1, h2, hEq, cacheSet, hne, entryOkB, hOk]
  | none =>
    obtain ⟨eN, hEq, hOk⟩ := discoverFresh_cacheSet net uj now d cache
    simp [discover_rss_feed, hc, hEq, cacheSet, hne, entryOkB, hOk]

/-! ## Claim C3: order of HTML alternate-link discovery -/

/-- Modelled from the spec (claim C3's reading): the earliest link of the
document, in document order, whose rel is alternate and whose type is any
of the three feed media types and which carries a truthy href. -/
def firstFeedLinkDocOrder (uj : String → String → String) (url : String)
    (doc : HtmlDoc) : Option String :=
  match List.find?
      (fun l => l.rel.contains "alternate" &&
        FEED_LINK_TYPES.any (fun t => l.ltype == some t) && optTruthy l.href) doc with
  | some l => some (resolveHref uj url (l.href.getD ""))
  | none => none

/-- The HTML page used to separate document order from type order: an atom
link first, an rss link second. -/
def c3Doc : HtmlDoc :=
  [⟨["alternate"], some "application/atom+xml", some "https://ex.com/atom.xml"⟩,
   ⟨["alternate"], some "application/rss+xml", some "https://ex.com/rss.xml"⟩]

def c3Net : Net :=
  { getHtml := fun u => if u = "https://ex.com" then some c3Doc else none,
    getResp := fun _ => none }

/-- C3 counterexample: on a page whose earliest alternate feed link is the
atom one, the source's discover_rss_from_html returns the rss link (it
searches type-by-type, rss+xml first), not the earliest link in document
order as the claim states. -/
theorem C3_counterexample :
    (discover_rss_from_html c3Net ujW "https://ex.com").1 =
      some "https://ex.com/rss.xml" ∧
    firstFeedLinkDocOrder ujW "https://ex.com" c3Doc =
      some "https://ex.com/atom.xml" ∧
    ("https://ex.com/rss.xml" : String) ≠ "https://ex.com/atom.xml" := by
  refine ⟨rfl, rfl, by decide⟩

/-- The per-type search the amended claim describes: the first link of the
given type in document order, accepted only when its href is truthy. -/
def firstLinkOfType (uj : String → String → String) (url : String)
    (doc : HtmlDoc) (t : String) : Option String :=
  match (doc.filter (linkMatches t)).head? with
  | some l => if optTruthy l.href then some (resolveHref uj url (l.href.getD "")) else none
  | none => none

/-- Modelled from the spec as amended: try the three media types in the
fixed priority order; for each, take the first matching link of the whole
document; return on the first type that yields a truthy href. -/
def discoverHtmlSpec (uj : String → String → String) (url : String)
    (doc : HtmlDoc) : Option String :=
  FEED_LINK_TYPES.findSome? (firstLinkOfType uj url doc)

theorem find?_eq_head?_filter (t : String) (doc : HtmlDoc) :
    List.find? (linkMatches t) doc = (doc.filter (linkMatches t)).head? := by
  induction doc with
  | nil => rfl
  | cons l ls ih =>
    by_cases hl : linkMatches t l = true
    · simp [List.find?, List.filter, hl]
    · simp only [List.find?, List.filter, hl, Bool.false_eq_true, if_neg]
      exact ih

theorem htmlTypeLoop_eq_findSome (uj : String → String → String) (url : String)
    (doc : HtmlDoc) (ts : List String) :
    htmlTypeLoop uj url doc ts = ts.findSome? (firstLinkOfType uj url doc) := by
  induction ts with
  | nil => rfl
  | cons t ts ih =>
    have hft : firstLinkOfType uj url doc t =
        (match List.find? (linkMatches t) doc with
          | some l =>
            if optTruthy l.href then some (resolveHref uj url (l.href.getD "")) else none
          | none => none) := by
      unfold firstLinkOfType
      rw [← find?_eq_head?_filter]
    rw [htmlTypeLoop, List.findSome?_cons, hft]
    cases hf : List.find? (linkMatches t) doc with
    | none => simpa using ih
    | some l =>
      by_cases hh : optTruthy l.href = true
      · simp [hh]
      · simp [hh, ih]

/-- C3 (amended): for every fetched page, discover_rss_from_html issues
one request and returns the result of searching the three feed media
types in the fixed priority order rss+xml, atom+xml, xml — for each type
the first matching alternate link of the document in document order,
accepted when it has a truthy href (resolved against the page URL when
relative) — not the earliest matching link regardless of type. -/
theorem C3_amended_type_priority (net : Net) (uj : String → String → String)
    (url : String) (doc : HtmlDoc) (h : net.getHtml url = some doc) :
    discover_rss_from_html net uj url = (discoverHtmlSpec uj url doc, 1) := by
  simp only [discover_rss_from_html, h, discoverHtmlSpec, htmlTypeLoop_eq_findSome]

theorem C3_witness :
    discover_rss_from_html c3Net ujW "https://ex.com" =
      (discoverHtmlSpec ujW "https://ex.com" c3Doc, 1) :=
  C3_amended_type_priority c3Net ujW "https://ex.com" c3Doc rfl

theorem C9_witness :
    (discover_rss_feed netNone ujW 0 "a.com" (fun _ => none)).2.1 "b.com" =
      (fun _ => (none : Option CacheEntry)) "b.com" ∧
    entryOkB ((discover_rss_feed netNone ujW 0 "a.com" (fun _ => none)).2.1 "a.com") =
      true :=
  C9_cache_frame netNone ujW 0 "a.com" (fun _ => none) "b.com" (by decide)

/-! ## Claim C2: when the cron cursor advances -/

/-- C2 counterexample: a cron run whose crawl result is loaded fine but
yields no feed URLs (here: zero posts) completes normally with return 0,
yet run_sync returns through the early "no RSS feeds found" exit, before
the cursor-advance step — set_last_cron_run is not called. -/
theorem C2_counterexample :
    (run_sync true false 0
        ⟨some ⟨[]⟩, none, 0, fun _ => none, netNone, ujW,
          fun _ => .error "e", fun l => l.length⟩).result = .ok 0 ∧
    (run_sync true false 0
        ⟨some ⟨[]⟩, none, 0, fun _ => none, netNone, ujW,
          fun _ => .error "e", fun l => l.length⟩).cursorAdvanced = false :=
  ⟨rfl, rfl⟩

/-- C2 (amended): in non-cron mode set_last_cron_run is never called; in
cron mode it is called before run_sync returns whenever the crawl file
loads and discovery yields at least one feed URL — including a run in
which zero items were written — but a cron run that finds no feed URLs at
all returns 0 through the early exit without advancing the cursor. -/
theorem C2_amended_cursor_advance (sd : Bool) (lim : Nat) (env : RunEnv) :
    ((run_sync false sd lim env).cursorAdvanced = false) ∧
    (∀ crawl, env.crawl = some crawl →
      (discoverLoop env.net env.uj env.now sd (syncDomains lim crawl) env.cache).2 ≠ [] →
      (run_sync true sd lim env).cursorAdvanced = true) := by
  constructor
  · rcases hc : env.crawl with _ | crawl
    · simp [run_sync, hc]
    · simp only [run_sync, hc]
      split
      · rfl
      · split
        · rfl
        · rfl
  · intro crawl hc hne
    simp only [run_sync, hc]
    split
    · next h => exact absurd (List.isEmpty_iff.mp h) hne
    · split
      · rfl
      · rfl

theorem C2_witness :
    (run_sync true false 0
        ⟨some ⟨[⟨"https://a.com/p", []⟩]⟩, none, 0,
          fun x => if x = "a.com" then some (resolvedEntry "https://a.com/feed" 0) else none,
          netNone, ujW, fun _ => .error "x", fun l => l.length⟩).cursorAdvanced = true :=
  (C2_amended_cursor_advance false 0
      ⟨some ⟨[⟨"https://a.com/p", []⟩]⟩, none, 0,
        fun x => if x = "a.com" then some (resolvedEntry "https://a.com/feed" 0) else none,
        netNone, ujW, fun _ => .error "x", fun l => l.length⟩).2
    ⟨[⟨"https://a.com/p", []⟩]⟩ rfl (by decide)

end AINewsletter
